import Mathlib

set_option maxRecDepth 8000

/-!
Shallow embedding of the gfxl compiler pipeline (lexer, Pratt parser,
semantic analyzer, code generator) translated from the C++ sources under
src/src (Lexer.cpp, Parser.cpp/Parser.h, Token.h, ast.h,
semantic_analyzer.h, symbol_table.h, Codegen.cpp/Codegen.h), together with
theorems settling the frozen claims about the specification.

Modelling conventions:
- C++ strings are Lean String / List Char; the NUL sentinel character used
  by the lexer is Char.ofNat 0.
- Machine ints are Lean Int; std::stoi and its int range are modelled
  explicitly (see stoiLite) including its two exception outcomes.
- In-place mutation of AST nodes by the analyzer is modelled by returning
  an updated tree.  The C++ field shadowing (IdentifierExpr declares its
  own resolvedType hiding Expression::resolvedType, ast.h lines 21 and 44)
  is modelled by giving the ident constructor two type fields: rt (the
  inherited Expression::resolvedType) and rtShadow (the shadowing field).
- Recursive scanning/parsing loops are modelled with an explicit fuel
  argument so that every definition is executable by kernel reduction;
  fuel bounds are chosen generously, and for the parser it is proved
  (claim C10) that the chosen fuel never runs out.
-/

namespace Gfxl

/-- TokenType from Token.h (all 24 enumerators). -/
inductive TokenType where
  | ILLEGAL
  | END_OF_FILE
  | IDENTIFIER
  | INT
  | FLOAT
  | STRING
  | OCTAL
  | HEX
  | CHAR
  | BOOL
  | ASSIGN
  | PLUS
  | MINUS
  | ASTERISK
  | SLASH
  | SEMICOLON
  | COLON
  | LPAREN
  | RPAREN
  | PRINT
  | TRUE
  | FALSE
  | COMMENT_MULTI_LINE
  | COMMENT_SINGLE_LINE
deriving DecidableEq, Repr

open TokenType

/-- tokenTypeStrings from Lexer.cpp: the name printed for each token kind.
The C++ map contains an entry for every enumerator, so it is a total
function here. -/
def tokenTypeStrings : TokenType → String
  | .ILLEGAL => "ILLEGAL"
  | .END_OF_FILE => "EOF"
  | .IDENTIFIER => "IDENTIFIER"
  | .INT => "INT"
  | .BOOL => "BOOL"
  | .FLOAT => "FLOAT"
  | .STRING => "STRING"
  | .CHAR => "CHAR"
  | .ASSIGN => "ASSIGN"
  | .COLON => "COLON"
  | .OCTAL => "OCTAL"
  | .HEX => "HEX"
  | .PLUS => "PLUS"
  | .MINUS => "MINUS"
  | .ASTERISK => "ASTERISK"
  | .SLASH => "SLASH"
  | .SEMICOLON => "SEMICOLON"
  | .LPAREN => "LPAREN"
  | .RPAREN => "RPAREN"
  | .PRINT => "PRINT"
  | .TRUE => "TRUE"
  | .FALSE => "FALSE"
  | .COMMENT_MULTI_LINE => "COMMENT_MULTI_LINE"
  | .COMMENT_SINGLE_LINE => "COMMENT_SINGLE_LINE"

/-- Token from Token.h: a (kind, literal-text) pair. -/
structure Token where
  type : TokenType
  literal : String
deriving DecidableEq, Repr

/-! ## Lexer (Lexer.cpp / Lexer.h) -/

/-- The NUL character the lexer uses as its end-of-input sentinel. -/
def nulC : Char := Char.ofNat 0

/-- Lexer state: input_, position_, readPosition_, ch_. -/
structure LState where
  input : List Char
  position : Nat
  readPosition : Nat
  ch : Char
deriving DecidableEq, Repr

/-- Lexer::advance (Lexer.cpp lines 47-55).  Note that position_ is set to
readPosition_ - 1 in both branches; at end of input readPosition_ is not
incremented, so position_ stops moving (this is the source of the
end-of-input truncation behaviour).  size_t subtraction at 0 is modelled
with Nat subtraction; the only state where readPosition_ = 0 is the
pre-constructor state, which never reaches a slicing operation. -/
def advanceL (st : LState) : LState :=
  if st.readPosition < st.input.length then
    { st with ch := st.input.getD st.readPosition nulC,
              readPosition := st.readPosition + 1,
              position := st.readPosition }
  else
    { st with ch := nulC, position := st.readPosition - 1 }

/-- Lexer::peek (Lexer.cpp lines 58-61). -/
def peekL (st : LState) (ahead : Nat) : Char :=
  st.input.getD (st.readPosition + ahead) nulC

/-- Lexer constructor (Lexer.cpp lines 40-44). -/
def initL (s : String) : LState :=
  advanceL { input := s.data, position := 0, readPosition := 0, ch := nulC }

/-- C locale isspace on the ASCII range. -/
def isSpaceC (c : Char) : Bool :=
  c = ' ' || c = '\t' || c = '\n' || c = Char.ofNat 11 || c = Char.ofNat 12 || c = '\r'

def isDigitC (c : Char) : Bool := '0' ≤ c && c ≤ '9'

def isAlphaC (c : Char) : Bool := ('a' ≤ c && c ≤ 'z') || ('A' ≤ c && c ≤ 'Z')

def isAlnumC (c : Char) : Bool := isAlphaC c || isDigitC c

/-- substr over the stored input: input_.substr(start, len). -/
def sliceL (l : List Char) (start len : Nat) : String :=
  String.mk ((l.drop start).take len)

/-- Generic fueled scanning loop: while (p ch_) advance(). -/
def scanWhileF (p : Char → Bool) : Nat → LState → LState
  | 0, st => st
  | fuel + 1, st => if p st.ch then scanWhileF p fuel (advanceL st) else st

/-- Lexer::skipSinglelineComment (Lexer.cpp lines 199-207). -/
def skipSingleF (fuel : Nat) (st : LState) : LState :=
  let st1 := scanWhileF (fun c => ¬ (c = '\n') && ¬ (c = nulC)) fuel st
  if st1.ch = '\n' then advanceL st1 else st1

/-- Loop of Lexer::skipMultilineComment: scan until ### or end of input. -/
def skipMultiLoopF : Nat → LState → LState
  | 0, st => st
  | fuel + 1, st =>
    if st.ch = nulC then st
    else if st.ch = '#' && peekL st 0 = '#' && peekL st 1 = '#' then
      advanceL (advanceL (advanceL st))
    else skipMultiLoopF fuel (advanceL st)

/-- Lexer::skipMultilineComment (Lexer.cpp lines 209-220). -/
def skipMultiF (fuel : Nat) (st : LState) : LState :=
  skipMultiLoopF fuel (advanceL (advanceL (advanceL st)))

/-- Lexer::skipIgnorable (Lexer.cpp lines 64-82). -/
def skipIgnorableF : Nat → LState → LState
  | 0, st => st
  | fuel + 1, st =>
    let st1 := scanWhileF isSpaceC (st.input.length + 2) st
    if st1.ch = '#' && peekL st1 0 = '#' && peekL st1 1 = '#' then
      skipIgnorableF fuel (skipMultiF (st1.input.length + 2) st1)
    else if st1.ch = '#' then
      skipIgnorableF fuel (skipSingleF (st1.input.length + 2) st1)
    else st1

/-- Lexer::lookupIdent (Lexer.cpp lines 166-171). -/
def lookupIdent (lit : String) : TokenType :=
  if lit = "print" then .PRINT
  else if lit = "true" then .TRUE
  else if lit = "false" then .FALSE
  else .IDENTIFIER

/-- Lexer::readString (Lexer.cpp lines 173-183). -/
def readStringL (st : LState) : String × LState :=
  let st1 := advanceL st
  let start := st1.position
  let st2 := scanWhileF (fun c => ¬ (c = '"') && ¬ (c = nulC)) (st1.input.length + 2) st1
  let s := sliceL st2.input start (st2.position - start)
  (s, advanceL st2)

/-- Lexer::readCharLiteral (Lexer.cpp lines 185-197).  The body of the
`if (ch_ != '\'')` check is empty in the source, so no error handling
occurs. -/
def readCharL (st : LState) : String × LState :=
  let st1 := advanceL st
  if st1.ch = nulC then ("", st1)
  else
    let c := st1.ch
    let st2 := advanceL st1
    (String.mk [c], advanceL st2)

/-- Lexer::nextToken (Lexer.cpp lines 84-164), including the numeric
branch exactly as written.  The C++ condition on line 112 is
`if (ch_ = '0' && peek() == 'x' || peek() == 'X')`: operator precedence
makes this the ASSIGNMENT ch_ = (('0' != 0 && peek()=='x') || peek()=='X'),
i.e. ch_ is overwritten with the boolean (char 1 or char 0) and that
boolean is the branch condition.  Consequently any digit followed by
x or X takes the HEX branch, and for every other digit ch_ becomes NUL so
the decimal scanning loop reads nothing and the INT literal text is empty. -/
def nextTokenL (st0 : LState) : Token × LState :=
  let st := skipIgnorableF (2 * st0.input.length + 8) st0
  if st.ch = '"' then
    let (s, st') := readStringL st
    (⟨.STRING, s⟩, st')
  else if st.ch = Char.ofNat 39 then
    let (s, st') := readCharL st
    (⟨.CHAR, s⟩, st')
  else if isAlphaC st.ch || st.ch = '_' then
    let start := st.position
    let st' := scanWhileF (fun c => isAlnumC c || c = '_') (st.input.length + 2) st
    let lit := sliceL st'.input start (st'.position - start)
    (⟨lookupIdent lit, lit⟩, st')
  else if isDigitC st.ch then
    let b := peekL st 0 = 'x' || peekL st 0 = 'X'
    let st := { st with ch := if b then Char.ofNat 1 else nulC }
    if b then
      let start := st.position
      let st1 := advanceL (advanceL st)
      let st2 := scanWhileF isDigitC (st1.input.length + 2) st1
      (⟨.HEX, sliceL st2.input start (st2.position - start)⟩, st2)
    else
      let start := st.position
      let st1 := scanWhileF isDigitC (st.input.length + 2) st
      if st1.ch = '.' && isDigitC (peekL st1 0) then
        let st2 := scanWhileF isDigitC (st1.input.length + 2) (advanceL st1)
        (⟨.FLOAT, sliceL st2.input start (st2.position - start)⟩, st2)
      else
        let lit := sliceL st1.input start (st1.position - start)
        if lit.length > 1 && lit.data.headD nulC = '0' then
          (⟨.OCTAL, lit⟩, st1)
        else
          (⟨.INT, lit⟩, st1)
  else
    let tok : Token :=
      if st.ch = '=' then ⟨.ASSIGN, "="⟩
      else if st.ch = '+' then ⟨.PLUS, "+"⟩
      else if st.ch = '-' then ⟨.MINUS, "-"⟩
      else if st.ch = '*' then ⟨.ASTERISK, "*"⟩
      else if st.ch = '/' then ⟨.SLASH, "/"⟩
      else if st.ch = ';' then ⟨.SEMICOLON, ";"⟩
      else if st.ch = '(' then ⟨.LPAREN, "("⟩
      else if st.ch = ')' then ⟨.RPAREN, ")"⟩
      else if st.ch = ':' then ⟨.COLON, ":"⟩
      else if st.ch = nulC then ⟨.END_OF_FILE, ""⟩
      else ⟨.ILLEGAL, String.mk [st.ch]⟩
    (tok, advanceL st)

/-- Repeated nextToken calls, collecting tokens up to (and excluding) the
first END_OF_FILE token, exactly the stream the parser consumes. -/
def tokenizeF : Nat → LState → List Token
  | 0, _ => []
  | fuel + 1, st =>
    let (t, st') := nextTokenL st
    if t.type = .END_OF_FILE then [] else t :: tokenizeF fuel st'

/-- Token stream of a source string. -/
def tokenize (s : String) : List Token :=
  tokenizeF (2 * s.length + 8) (initL s)

/-! ## AST (ast.h) -/

/-- Expression nodes from ast.h.  rt models the inherited
Expression::resolvedType field (initialised to ILLEGAL, ast.h line 21).
IdentifierExpr additionally declares its own resolvedType (ast.h line 44)
which SHADOWS the inherited one; that second field is rtShadow.
IntegerLiteral stores a C++ int. -/
inductive Expr where
  | intLit (value : Int) (rt : TokenType)
  | boolLit (value : Bool) (rt : TokenType)
  | ident (name : String) (rt : TokenType) (rtShadow : TokenType)
  | binary (left : Expr) (op : TokenType) (right : Expr) (rt : TokenType)
deriving DecidableEq, Repr

/-- Statement nodes from ast.h.  AssignmentStatement holds an
IdentifierExpr (name + both resolvedType fields) and a value expression. -/
inductive Stmt where
  | exprS (e : Expr)
  | assignS (name : String) (identRt : TokenType) (identShadow : TokenType) (value : Expr)
  | printS (e : Expr)
deriving DecidableEq, Repr

/-- Top-level parse results: a statement, or a CommentNode (which
Parser::parseProgram drops from the statement list). -/
inductive TopNode where
  | stmtNode (s : Stmt)
  | commentNode (t : Token)
deriving DecidableEq, Repr

/-- Reading resolvedType through an Expression pointer or reference, as
the analyzer's print/assignment checks and the code generator do: this is
always the inherited base field, never IdentifierExpr's shadowing field. -/
def rtBase : Expr → TokenType
  | .intLit _ rt => rt
  | .boolLit _ rt => rt
  | .ident _ rt _ => rt
  | .binary _ _ _ rt => rt

/-! ## Parser (Parser.cpp / Parser.h) -/

/-- Precedence enumerators from Parser.h lines 14-19. -/
def LOWEST : Nat := 1
def SUM : Nat := 2
def PRODUCT : Nat := 3
def ASSIGN_PRECEDENCE : Nat := 4

/-- The precedences map from Parser.cpp lines 9-15. -/
def precLookup (t : TokenType) : Option Nat :=
  if t = .ASSIGN then some ASSIGN_PRECEDENCE
  else if t = .PLUS then some SUM
  else if t = .MINUS then some SUM
  else if t = .ASTERISK then some PRODUCT
  else if t = .SLASH then some PRODUCT
  else none

/-- Token kinds with a registered prefix parse function
(Parser.cpp lines 334-338). -/
def hasPrefixFn (t : TokenType) : Bool :=
  t = .INT || t = .IDENTIFIER || t = .LPAREN || t = .TRUE || t = .FALSE

/-- Token kinds with a registered infix parse function
(Parser.cpp lines 340-344). -/
def hasInfixFn (t : TokenType) : Bool :=
  t = .PLUS || t = .MINUS || t = .ASTERISK || t = .SLASH || t = .ASSIGN

def isCommentTok (t : TokenType) : Bool :=
  t = .COMMENT_SINGLE_LINE || t = .COMMENT_MULTI_LINE

/-- Parser state: the not-yet-consumed token window (head = currentToken_,
second element = peekToken_) and the accumulated error list.  Past the end
of the list the lexer keeps returning END_OF_FILE tokens, modelled by the
padding in curTok/peekTok. -/
structure PState where
  toks : List Token
  errors : List String
deriving DecidableEq, Repr

def eofTok : Token := ⟨.END_OF_FILE, ""⟩

def curTok (st : PState) : Token := st.toks.headD eofTok

def peekTok (st : PState) : Token := st.toks.tail.headD eofTok

/-- Parser::nextToken (Parser.cpp lines 48-56): shift the window by one and
skip comment tokens when refilling the peek position. -/
def advanceP (st : PState) : PState :=
  { st with toks :=
      match st.toks.tail with
      | [] => []
      | c :: rest => c :: rest.dropWhile (fun t => isCommentTok t.type) }

def pushErr (st : PState) (msg : String) : PState :=
  { st with errors := st.errors ++ [msg] }

/-- Parser::peekError (Parser.cpp lines 30-35). -/
def peekErrorMsg (t : TokenType) (st : PState) : String :=
  "Parser error: Expected next token to be " ++ tokenTypeStrings t ++
    ", got " ++ tokenTypeStrings (peekTok st).type ++
    " instead. (Literal: '" ++ (peekTok st).literal ++ "')"

/-- Parser::expectPeek (Parser.cpp lines 66-75). -/
def expectPeekP (t : TokenType) (st : PState) : Bool × PState :=
  if (peekTok st).type = t then (true, advanceP st)
  else (false, pushErr st (peekErrorMsg t st))

/-- Parser::peekPrecedence (Parser.cpp lines 201-207). -/
def peekPrecP (st : PState) : Nat :=
  (precLookup (peekTok st).type).getD LOWEST

/-- Parser::currentPrecedence (Parser.cpp lines 209-215). -/
def curPrecP (st : PState) : Nat :=
  (precLookup (curTok st).type).getD LOWEST

/-- std::stoi on the literal text, as used by Parser::parseIntegerLiteral:
skip leading whitespace, optional sign, then at least one digit
(otherwise std::invalid_argument); result must fit in a 32-bit int
(otherwise std::out_of_range).  .error false = invalid_argument,
.error true = out_of_range. -/
def stoiTakeDigits : List Char → Int → Int
  | c :: rest, acc =>
    if isDigitC c then stoiTakeDigits rest (acc * 10 + ((c.toNat : Int) - 48))
    else acc
  | [], acc => acc
def stoiLite (s : String) : Except Bool Int :=
  let cs := s.data.dropWhile isSpaceC
  let (sign, cs2) : Int × List Char :=
    match cs with
    | '-' :: rest => (-1, rest)
    | '+' :: rest => (1, rest)
    | _ => (1, cs)
  if (cs2.takeWhile isDigitC).isEmpty then .error false
  else
    let v := sign * stoiTakeDigits (cs2.takeWhile isDigitC) 0
    if v > 2147483647 ∨ v < -2147483648 then .error true else .ok v

/-- Null-propagation sequencing shared by the parsing functions: a parse
result is fuel-exhaustion (outer none), a null sub-tree with errors
already recorded (inner none, propagated unchanged as in the C++
`if (!expr) return nullptr;` idiom), or a sub-tree passed on. -/
def nullBind (x : Option (Option α × PState))
    (k : α → PState → Option (Option β × PState)) : Option (Option β × PState) :=
  match x with
  | none => none
  | some (none, st) => some (none, st)
  | some (some a, st) => k a st

/-- Parser::parseIntegerLiteral (Parser.cpp lines 275-288). -/
def parseIntegerLiteralP (st : PState) : Option Expr × PState :=
  match stoiLite (curTok st).literal with
  | .ok v => (some (.intLit v .ILLEGAL), st)
  | .error true =>
    (none, pushErr st ("Integer literal " ++ (curTok st).literal ++ " out of range."))
  | .error false =>
    (none, pushErr st ("Could not parse " ++ (curTok st).literal ++ " as integer."))

mutual

/-- Parser::parseExpression (Parser.cpp lines 217-255): prefix dispatch
followed by the precedence-climbing loop (parseLoopF).  The outer Option
is fuel exhaustion (proved unreachable for the fuel used by parseTokens,
see claim C10); the inner Option is the null expression of the source. -/
def parseExprF : Nat → Nat → PState → Option (Option Expr × PState)
  | 0, _, _ => none
  | fuel + 1, prec, st =>
    if hasPrefixFn (curTok st).type = false then
      some (none, pushErr st ("No prefix parse function for " ++
        tokenTypeStrings (curTok st).type ++ " (" ++ (curTok st).literal ++ ") found."))
    else
      nullBind
        (if (curTok st).type = .LPAREN then parseGroupedF fuel st
         else if (curTok st).type = .INT then some (parseIntegerLiteralP st)
         else if (curTok st).type = .IDENTIFIER then
           some (some (.ident (curTok st).literal .ILLEGAL .ILLEGAL), st)
         else
           some (some (.boolLit ((curTok st).type = .TRUE) .ILLEGAL), st))
        (fun left st1 => parseLoopF fuel left prec st1)

/-- The while loop inside Parser::parseExpression (lines 235-253). -/
def parseLoopF : Nat → Expr → Nat → PState → Option (Option Expr × PState)
  | 0, _, _, _ => none
  | fuel + 1, left, prec, st =>
    if (peekTok st).type = .SEMICOLON then some (some left, st)
    else if ¬ (prec < peekPrecP st) then some (some left, st)
    else if hasInfixFn (peekTok st).type = false then some (some left, st)
    else
      nullBind (parseInfixF fuel left (advanceP st))
        (fun l2 st2 => parseLoopF fuel l2 prec st2)

/-- Parser::parseInfixExpression (Parser.cpp lines 310-323). -/
def parseInfixF : Nat → Expr → PState → Option (Option Expr × PState)
  | 0, _, _ => none
  | fuel + 1, left, st =>
    let op := (curTok st).type
    let prec := curPrecP st
    nullBind (parseExprF fuel prec (advanceP st))
      (fun right st2 => some (some (.binary left op right .ILLEGAL), st2))

/-- Parser::parseGroupedExpression (Parser.cpp lines 294-308). -/
def parseGroupedF : Nat → PState → Option (Option Expr × PState)
  | 0, _ => none
  | fuel + 1, st =>
    nullBind (parseExprF fuel LOWEST (advanceP st))
      (fun e st2 =>
        let r := expectPeekP .RPAREN st2
        if r.1 then some (some e, r.2) else some (none, r.2))

end

/-- Parser::parsePrintStatement (Parser.cpp lines 258-273). -/
def parsePrintF (fuel : Nat) (st : PState) : Option (Option Stmt × PState) :=
  nullBind (parseExprF fuel LOWEST (advanceP st))
    (fun e st2 =>
      let st3 := if (peekTok st2).type = .SEMICOLON then advanceP st2 else st2
      some (some (.printS e), st3))

/-- Parser::parseAssignmentStatement (Parser.cpp lines 165-186). -/
def parseAssignF (fuel : Nat) (st : PState) : Option (Option Stmt × PState) :=
  let name := (curTok st).literal
  let r := expectPeekP .ASSIGN st
  if r.1 = false then some (none, r.2)
  else
    nullBind (parseExprF fuel LOWEST (advanceP r.2))
      (fun v st2 =>
        let st3 := if (peekTok st2).type = .SEMICOLON then advanceP st2 else st2
        some (some (.assignS name .ILLEGAL .ILLEGAL v), st3))

/-- Parser::parseExpressionStatement (Parser.cpp lines 188-199). -/
def parseExprStmtF (fuel : Nat) (st : PState) : Option (Option Stmt × PState) :=
  nullBind (parseExprF fuel LOWEST st)
    (fun e st2 =>
      let st3 := if (peekTok st2).type = .SEMICOLON then advanceP st2 else st2
      some (some (.exprS e), st3))

/-- Parser::parseStatement (Parser.cpp lines 145-159). -/
def parseStatementF (fuel : Nat) (st : PState) : Option (Option Stmt × PState) :=
  if (curTok st).type = .PRINT then parsePrintF fuel st
  else if (curTok st).type = .IDENTIFIER ∧ (peekTok st).type = .ASSIGN then
    parseAssignF fuel st
  else parseExprStmtF fuel st

/-- Parser::parseTopLevelNode (Parser.cpp lines 130-142). -/
def parseTopLevelF (fuel : Nat) (st : PState) : Option (Option TopNode × PState) :=
  if isCommentTok (curTok st).type then
    some (some (.commentNode (curTok st)), st)
  else
    nullBind (parseStatementF fuel st)
      (fun s st2 => some (some (.stmtNode s), st2))

/-- The loop of Parser::parseProgram (Parser.cpp lines 78-125): process the
current top-level node (statements are appended, comments dropped), then
advance one token.  The expression fuel for each iteration is computed
from the current window size. -/
def parseProgramGoF : Nat → PState → List Stmt → Option (List Stmt × PState)
  | 0, _, _ => none
  | fuel + 1, st, acc =>
    if (curTok st).type = .END_OF_FILE then some (acc, st)
    else
      (parseTopLevelF (2 * st.toks.length + 10) st).bind
        (fun p =>
          parseProgramGoF fuel (advanceP p.2)
            (match p.1 with
             | some (.stmtNode s) => acc ++ [s]
             | _ => acc))

/-- The Parser constructor's two initial nextToken calls: the window is
the raw lexer stream with comment tokens removed from the first two
positions. -/
def initWindow (raw : List Token) : List Token :=
  match raw.dropWhile (fun t => isCommentTok t.type) with
  | [] => []
  | c :: rest => c :: rest.dropWhile (fun t => isCommentTok t.type)

/-- parseProgram with the fuel actually supplied by parseTokens. -/
def parseProgramAux (raw : List Token) : Option (List Stmt × PState) :=
  let st0 : PState := ⟨initWindow raw, []⟩
  parseProgramGoF (st0.toks.length + 1) st0 []

/-- Parser::parseProgram plus Parser::getErrors: the statement list and
the accumulated error messages.  The none branch of parseProgramAux is
proved unreachable in claim C10. -/
def parseTokens (raw : List Token) : List Stmt × List String :=
  match parseProgramAux raw with
  | some (stmts, st) => (stmts, st.errors)
  | none => ([], ["INTERNAL: parser fuel exhausted"])

/-! ## Semantic analyzer (semantic_analyzer.h, symbol_table.h)

The analyzer never calls enterScope/exitScope, so the scope chain is a
single SymbolTable frame, modelled as an association list from names to
declared token types (SymbolEntry's SymbolType is always SYM_VAR and
carries no information). -/

/-- SymbolTable::resolve restricted to the single global frame. -/
def resolveS : List (String × TokenType) → String → Option TokenType
  | [], _ => none
  | (k, v) :: rest, n => if k = n then some v else resolveS rest n

/-- SymbolTable::define (symbol_table.h lines 26-33): no-op when the name
is already present. -/
def defineS (scope : List (String × TokenType)) (n : String) (t : TokenType) :
    List (String × TokenType) :=
  if (resolveS scope n).isSome then scope else scope ++ [(n, t)]

/-- Analyzer state: the global scope frame and the error list. -/
structure AState where
  scope : List (String × TokenType)
  errors : List String
deriving DecidableEq, Repr

def addErrA (st : AState) (msg : String) : AState :=
  { st with errors := st.errors ++ [msg] }

/-- The operand typing used by SemanticAnalyzer::visit(BinaryExpression&)
(semantic_analyzer.h lines 126-146): a dynamic_cast chain that covers only
IdentifierExpr (read through its SHADOWING resolvedType field),
IntegerLiteral (hardcoded INT) and BinaryExpression (base resolvedType);
any other node, e.g. a BooleanLiteral, leaves the type at ILLEGAL. -/
def castChainT : Expr → TokenType
  | .ident _ _ sh => sh
  | .intLit _ _ => .INT
  | .binary _ _ _ rt => rt
  | .boolLit _ _ => .ILLEGAL

/-- The syntactic literal-zero divisor test of semantic_analyzer.h
lines 159-166. -/
def isIntLitZero : Expr → Bool
  | .intLit v _ => v = 0
  | _ => false

/-- SemanticAnalyzer's expression visits (semantic_analyzer.h): returns
the node with its resolvedType field(s) updated, plus the new state.
visit(IdentifierExpr&) writes the SHADOWING field only; the inherited
Expression::resolvedType of an identifier is never written. -/
def analyzeExpr : AState → Expr → Expr × AState
  | st, .intLit v _ => (.intLit v .INT, st)
  | st, .boolLit b _ => (.boolLit b .BOOL, st)
  | st, .ident n rt _ =>
    match resolveS st.scope n with
    | none =>
      (.ident n rt .ILLEGAL,
        addErrA st ("Semantic Error: Undefined variable '" ++ n ++ "'."))
    | some t => (.ident n rt t, st)
  | st, .binary l op r _ =>
    let p1 := analyzeExpr st l
    let p2 := analyzeExpr p1.2 r
    let lt := castChainT p1.1
    let rt2 := castChainT p2.1
    let q : TokenType × AState :=
      if lt = .ILLEGAL ∨ rt2 = .ILLEGAL then (.ILLEGAL, p2.2)
      else if ¬ (lt = .INT) ∨ ¬ (rt2 = .INT) then
        (.ILLEGAL, addErrA p2.2 ("Semantic Error: Arithmetic operator '" ++
          tokenTypeStrings op ++ "' expects integer operands."))
      else (.INT, p2.2)
    let q2 : TokenType × AState :=
      if op = .SLASH ∧ isIntLitZero p2.1 then
        (.ILLEGAL, addErrA q.2 "Semantic Error: Division by zero detected.")
      else q
    (.binary p1.1 op p2.1 q2.1, q2.2)

/-- SemanticAnalyzer's statement visits (semantic_analyzer.h lines 48-90).
In visit(AssignmentStatement&) every read and write of
node.identifier->resolvedType goes through an IdentifierExpr-typed
pointer, i.e. the shadowing field; the read of node.value->resolvedType
goes through an Expression pointer, i.e. the base field (rtBase). -/
def analyzeStmt : AState → Stmt → Stmt × AState
  | st, .exprS e =>
    let p := analyzeExpr st e
    (.exprS p.1, p.2)
  | st, .printS e =>
    let p := analyzeExpr st e
    (.printS p.1,
      if rtBase p.1 = .ILLEGAL then
        addErrA p.2
          "Semantic Error: PRINT statement argument has an unresolved or invalid type."
      else p.2)
  | st, .assignS n irt _ v =>
    let p := analyzeExpr st v
    let vt := rtBase p.1
    match resolveS p.2.scope n with
    | none =>
      if vt = .ILLEGAL then
        let st2 := addErrA p.2 ("Semantic Error: Attempting to define variable '" ++
          n ++ "' with an unresolved type.")
        (.assignS n irt .ILLEGAL p.1, { st2 with scope := defineS st2.scope n .ILLEGAL })
      else
        (.assignS n irt vt p.1, { p.2 with scope := defineS p.2.scope n vt })
    | some dt =>
      if ¬ (dt = vt) then
        if vt = .ILLEGAL then
          (.assignS n irt .ILLEGAL p.1,
            addErrA p.2 ("Semantic Warning: Assignment value for '" ++ n ++
              "' has an unresolved type. Variable type remains " ++
              tokenTypeStrings dt ++ "."))
        else
          (.assignS n irt .ILLEGAL p.1,
            addErrA p.2 ("Semantic Error: Type mismatch in assignment to '" ++ n ++
              "'. Expected " ++ tokenTypeStrings dt ++ ", but got " ++
              tokenTypeStrings vt ++ "."))
      else (.assignS n irt dt p.1, p.2)

/-- SemanticAnalyzer::analyze / visit(Program&): visit each statement in
order starting from the empty global scope. -/
def analyzeProgramGo : AState → List Stmt → List Stmt × AState
  | st, [] => ([], st)
  | st, s :: rest =>
    let p := analyzeStmt st s
    let q := analyzeProgramGo p.2 rest
    (p.1 :: q.1, q.2)

def analyzeProgram (prog : List Stmt) : List Stmt × AState :=
  analyzeProgramGo ⟨[], []⟩ prog

/-! ## Code generator (Codegen.cpp / Codegen.h) -/

/-- TargetPlatform from Codegen.h. -/
inductive Platform where
  | linux
  | windowsMingw
  | macos
  | unknown
deriving DecidableEq, Repr

/-- Code generator state: emitted text lines (each element one output
line, exactly as written to the stringstream), the codegen symbol table
with stack offsets, stackOffsetCounter_ and the error list. -/
structure GState where
  lines : List String
  symbols : List (String × Int × TokenType)
  counter : Int
  errors : List String
deriving DecidableEq, Repr

def emitG (st : GState) (s : String) : GState :=
  { st with lines := st.lines ++ ["  " ++ s] }

def rawG (st : GState) (s : String) : GState :=
  { st with lines := st.lines ++ [s] }

/-- CodeGenerator::emitComment (Codegen.cpp lines 68-74). -/
def commentG (p : Platform) (st : GState) (c : String) : GState :=
  if p = .linux ∨ p = .windowsMingw ∨ p = .macos then
    { st with lines := st.lines ++ ["  # " ++ c] }
  else st

def errG (st : GState) (msg : String) : GState :=
  { st with errors := st.errors ++ [msg] }

/-- CodeGenerator::getSymbol. -/
def getSymbolG : List (String × Int × TokenType) → String → Option (Int × TokenType)
  | [], _ => none
  | (k, v) :: rest, n => if k = n then some v else getSymbolG rest n

/-- CodeGenerator::getRegSize (Codegen.cpp lines 386-390). -/
def getRegSize (t : TokenType) : String :=
  if t = .INT then "qword" else if t = .BOOL then "byte" else "qword"

/-- CodeGenerator::getRegisterPart (Codegen.cpp lines 153-167).  Note the
BOOL branch computes baseReg[0] + "l" + baseReg.substr(1), which for
"rax" is "rlax", not "al" as the comment claims. -/
def getRegisterPart (t : TokenType) (baseReg : String) : String :=
  if baseReg = "" then ""
  else if t = .BOOL then
    if baseReg.length > 1 ∧ baseReg.data.headD nulC = 'r' then
      String.mk [baseReg.data.headD nulC] ++ "l" ++ String.mk (baseReg.data.drop 1)
    else if baseReg.length = 1 then baseReg
    else ""
  else baseReg

/-- CodeGenerator::getArgRegister (Codegen.cpp lines 392-411). -/
def getArgRegister (p : Platform) (argIndex : Nat) : String :=
  if p = .linux ∨ p = .macos then
    if argIndex = 0 then "rdi"
    else if argIndex = 1 then "rsi"
    else if argIndex = 2 then "rdx"
    else if argIndex = 3 then "rcx"
    else if argIndex = 4 then "r8"
    else if argIndex = 5 then "r9"
    else ""
  else if p = .windowsMingw then
    if argIndex = 0 then "rcx"
    else if argIndex = 1 then "rdx"
    else if argIndex = 2 then "r8"
    else if argIndex = 3 then "r9"
    else ""
  else ""

/-- CodeGenerator::emitMainPrologue (Codegen.cpp lines 77-104). -/
def emitPrologue (p : Platform) (st : GState) : GState :=
  if p = .linux ∨ p = .macos then
    let st := rawG st ".intel_syntax noprefix"
    let st := rawG st ".globl main"
    let st := rawG st ".text"
    let st := rawG st "main:"
    let st := emitG st "push rbp"
    emitG st "mov rbp, rsp"
  else if p = .windowsMingw then
    let st := rawG st ".intel_syntax noprefix"
    let st := rawG st ".globl main"
    let st := rawG st ".text"
    let st := rawG st "main:"
    let st := emitG st "push rbp"
    let st := emitG st "mov rbp, rsp"
    emitG st "sub rsp, 32"
  else errG st "Codegen Init: Cannot emit prologue for unknown platform."

/-- CodeGenerator::emitMainEpilogue (Codegen.cpp lines 106-135). -/
def emitEpilogue (p : Platform) (st : GState) : GState :=
  if p = .linux ∨ p = .macos then
    let st := commentG p st "Main Epilogue"
    let st := if st.counter < 0 then emitG st ("add rsp, " ++ toString (-st.counter)) else st
    let st := emitG st "mov rsp, rbp"
    let st := emitG st "pop rbp"
    let st := emitG st "mov eax, 0"
    emitG st "ret"
  else if p = .windowsMingw then
    let st := commentG p st "Main Epilogue"
    let st := if st.counter < 0 then emitG st ("add rsp, " ++ toString (-st.counter)) else st
    let st := emitG st "add rsp, 32"
    let st := emitG st "mov rsp, rbp"
    let st := emitG st "pop rbp"
    let st := emitG st "mov eax, 0"
    emitG st "ret"
  else errG st "Codegen Finalize: Cannot emit epilogue for unknown platform."

/-- CodeGenerator::emitPrintInteger (Codegen.cpp lines 137-151): move the
value into the first argument-passing register and call the integer print
helper. -/
def emitPrintInteger (p : Platform) (st : GState) (valueReg : String) : GState :=
  let st := commentG p st "Call print_int"
  let st := emitG st ("mov " ++ getArgRegister p 0 ++ ", " ++ getRegisterPart .INT valueReg)
  if p = .macos then emitG st "call _print_int" else emitG st "call print_int"

/-- CodeGenerator::emitPrintBoolean (Codegen.cpp lines 169-182). -/
def emitPrintBoolean (p : Platform) (st : GState) (valueReg : String) : GState :=
  let st := commentG p st "Call print_bool"
  let st := emitG st ("mov " ++ getArgRegister p 0 ++ ", " ++ getRegisterPart .BOOL valueReg)
  if p = .macos then emitG st "call _print_bool" else emitG st "call print_bool"

/-- CodeGenerator::defineVariable (Codegen.cpp lines 362-374). -/
def defineVariableG (st : GState) (n : String) (t : TokenType) : GState :=
  if (getSymbolG st.symbols n).isSome then
    errG st ("Internal Codegen Error: Variable '" ++ n ++ "' redefined in codegen symbol table.")
  else
    let c := st.counter - 8
    let st := { st with counter := c, symbols := st.symbols ++ [(n, c, t)] }
    emitG st "sub rsp, 8"

/-- CodeGenerator's expression visitors (Codegen.cpp lines 266-358).
visitIdentifierExpr (lines 296-307) emits, despite its comment saying
"Load the value ... into RAX", a mov whose DESTINATION is the stack slot
and whose source is the register: mov <size> ptr [rbp<off>], <reg>.
When the symbol is missing it records an error and returns without
emitting any instruction (no zero constant is substituted). -/
def visitExprG (p : Platform) : GState → Expr → GState
  | st, .intLit v _ =>
    let st := commentG p st ("Integer Literal: " ++ toString v)
    emitG st ("mov rax, " ++ toString v)
  | st, .boolLit b _ =>
    let st := commentG p st "true"
    let st := emitG st ("mov al, " ++ toString (if b then (1 : Nat) else 0))
    emitG st "movzx rax, al"
  | st, .ident n _ _ =>
    let st := commentG p st ("Identifier: " ++ n)
    match getSymbolG st.symbols n with
    | none => errG st ("Codegen Error: Undefined variable used '" ++ n ++ "'.")
    | some (off, ty) =>
      emitG st ("mov " ++ getRegSize ty ++ " ptr [rbp" ++ toString off ++ "], " ++
        getRegisterPart ty "rax")
  | st, .binary l op r _ =>
    let st := commentG p st ("Binary Expression: " ++ tokenTypeStrings op)
    let st := visitExprG p st r
    let st := emitG st "push rax"
    let st := { st with counter := st.counter + 8 }
    let st := visitExprG p st l
    let st := emitG st "pop rbx"
    let st := { st with counter := st.counter - 8 }
    if op = .PLUS then emitG st "add rax, rbx"
    else if op = .MINUS then emitG st "sub rax, rbx"
    else if op = .ASTERISK then emitG st "imul rbx"
    else if op = .SLASH then emitG (emitG st "cqo") "idiv rbx"
    else errG st ("Unhandled binary operator in code generation: " ++ tokenTypeStrings op)

/-- CodeGenerator's statement visitors (Codegen.cpp lines 192-264).
visitPrintStatement dispatches on node->expression->resolvedType read
through an Expression pointer (the base field). -/
def visitStmtG (p : Platform) : GState → Stmt → GState
  | st, .assignS n _ _ v =>
    let st := commentG p st ("Assignment: " ++ n)
    let st := visitExprG p st v
    let vt := rtBase v
    let st := if (getSymbolG st.symbols n).isSome then st else defineVariableG st n vt
    match getSymbolG st.symbols n with
    | none =>
      errG st ("Internal Codegen Error: Failed to get symbol for '" ++ n ++
        "' after definition.")
    | some (off, _) =>
      emitG st ("mov " ++ getRegSize vt ++ " ptr [rbp" ++ toString off ++ "], " ++
        getRegisterPart vt "rax")
  | st, .exprS e =>
    let st := commentG p st "Expression Statement"
    visitExprG p st e
  | st, .printS e =>
    let st := commentG p st "Print Statement"
    let st := visitExprG p st e
    let t := rtBase e
    if t = .INT then emitPrintInteger p st "rax"
    else if t = .BOOL then emitPrintBoolean p st "rax"
    else errG st ("Attempting to print an unsupported type (TokenType: " ++
      tokenTypeStrings t ++ ").")

/-- CodeGenerator::generate (Codegen.cpp lines 38-54) on a non-null
program: prologue, statements, epilogue; result is the emitted lines and
the error list. -/
def generate (p : Platform) (prog : List Stmt) : List String × List String :=
  let st0 : GState := ⟨[], [], 0, []⟩
  let st1 := emitPrologue p st0
  let st2 := prog.foldl (visitStmtG p) st1
  let st3 := emitEpilogue p st2
  (st3.lines, st3.errors)

/-! ## Whole pipeline -/

/-- Lex, parse, analyze, generate: the four-stage pipeline of Main.cpp.
Returns (parsed statements, parse errors, analyzed statements,
analysis errors, assembly lines, codegen errors). -/
def pipeline (p : Platform) (src : String) :
    List Stmt × List String × List Stmt × List String × List String × List String :=
  let pr := parseTokens (tokenize src)
  let an := analyzeProgram pr.1
  let cg := generate p an.1
  (pr.1, pr.2, an.1, an.2.errors, cg.1, cg.2)

/-- Assembly text lines produced for a source string. -/
def asmLines (p : Platform) (src : String) : List String :=
  (pipeline p src).2.2.2.2.1

/-- Codegen error list produced for a source string. -/
def cgErrors (p : Platform) (src : String) : List String :=
  (pipeline p src).2.2.2.2.2

/-- Semantic-analysis error list produced for a source string. -/
def semErrors (p : Platform) (src : String) : List String :=
  (pipeline p src).2.2.2.1

/-- Executable character-list prefix test (String.startsWith does not
reduce in the kernel). -/
def listLeads : List Char → List Char → Bool
  | [], _ => true
  | _ :: _, [] => false
  | a :: as, b :: bs => a = b && listLeads as bs

/-- msg begins with the given head text. -/
def msgBegins (head msg : String) : Bool := listLeads head.data msg.data

/-- The inherited Expression::resolvedType fields of all IdentifierExpr
nodes in an expression, in traversal order.  The analyzer only ever
writes the shadowing field of an identifier, so these values are
untouched by analysis (claim C4). -/
def identBasesE : Expr → List TokenType
  | .intLit _ _ => []
  | .boolLit _ _ => []
  | .ident _ rt _ => [rt]
  | .binary l _ r _ => identBasesE l ++ identBasesE r

/-- Same for a statement; an assignment contributes its target
IdentifierExpr's inherited field and its value's identifiers. -/
def identBasesS : Stmt → List TokenType
  | .exprS e => identBasesE e
  | .printS e => identBasesE e
  | .assignS _ irt _ v => irt :: identBasesE v

def identBasesP : List Stmt → List TokenType
  | [] => []
  | s :: rest => identBasesS s ++ identBasesP rest

/-- Invariant relating a parser state to a (non-fuel-exhausted) parse
result: the token window never grows, the error list is only appended to,
and a null result (parse failure) strictly extends the error list — this
is the formal content of the spec's "parse failures degrade to null
sub-trees while errors are appended". -/
def parseOkRel (st : PState) (r : Option α × PState) : Prop :=
  r.2.toks.length ≤ st.toks.length ∧
  st.errors <+: r.2.errors ∧
  (r.1 = none → ¬ st.errors = r.2.errors)

/-! ## Claim theorems -/

/-- Claim C1 (code_bug): the claim states that for `x = 2; print x;` the
generated assembly contains, in order, a store of the literal 2 into x's
slot, a load of that slot into the first argument register (rdi on
Linux), and a call to print_int.  The code does none of this.  First, the
lexer bug on Lexer.cpp line 112 (`ch_ = '0' && ...` assignment) turns the
literal 2 into an INT token with empty text, parsing fails, and the
program has zero statements, so the whole assembly is just prologue plus
epilogue with no store, no load and no call.  Second, even on the
correctly built and analyzed AST of this program, the identifier visit
emits a STORE-shaped mov (destination is the stack slot, Codegen.cpp line
306) instead of a load, and the print dispatch reads the identifier's
inherited resolvedType, which is still ILLEGAL because of the field
shadowing, so it records an unsupported-type error and never emits
`call print_int`. -/
theorem claim_C1_eval :
    pipeline .linux "x = 2; print x;" =
      ([], ["Could not parse  as integer."], [], [],
        [".intel_syntax noprefix", ".globl main", ".text", "main:", "  push rbp",
         "  mov rbp, rsp", "  # Main Epilogue", "  mov rsp, rbp", "  pop rbp",
         "  mov eax, 0", "  ret"], []) ∧
    "  call print_int" ∉ asmLines .linux "x = 2; print x;" ∧
    "  mov rax, 2" ∉ asmLines .linux "x = 2; print x;" ∧
    generate .linux
      (analyzeProgram
        [.assignS "x" .ILLEGAL .ILLEGAL (.intLit 2 .ILLEGAL),
         .printS (.ident "x" .ILLEGAL .ILLEGAL)]).1 =
      ([".intel_syntax noprefix", ".globl main", ".text", "main:", "  push rbp",
        "  mov rbp, rsp", "  # Assignment: x", "  # Integer Literal: 2",
        "  mov rax, 2", "  sub rsp, 8", "  mov qword ptr [rbp-8], rax",
        "  # Print Statement", "  # Identifier: x", "  mov qword ptr [rbp-8], rax",
        "  # Main Epilogue", "  add rsp, 8", "  mov rsp, rbp", "  pop rbp",
        "  mov eax, 0", "  ret"],
       ["Attempting to print an unsupported type (TokenType: ILLEGAL)."]) := by
  refine ⟨by decide, by decide, by decide, by decide⟩

/-- Claim C2 (code_bug): the claim states that every valid decimal integer
literal survives lex → parse → analyze as an IntegerLiteral of integer
type whose value prints back to the same number.  In fact no decimal
literal survives at all: because line 112 of Lexer.cpp assigns the
boolean hex-test to ch_, the digit-scanning loop reads nothing, the INT
token's literal text is empty, std::stoi throws invalid_argument, and the
parse of the literal fails.  Evaluated here on the source "12;". -/
theorem claim_C2_eval :
    tokenize "12;" = [⟨.INT, ""⟩] ∧
    parseTokens (tokenize "12;") = ([], ["Could not parse  as integer."]) := by
  exact ⟨by decide, by decide⟩

/-- Claim C3 (code_bug): the claim describes the intended numeric
classification (exactly a leading 0x/0X gives HEX, leading-zero run gives
OCTAL, plain digit run gives INT with exactly the sliced digit text,
digits.digits gives FLOAT).  The assignment typo in the hex condition
(Lexer.cpp line 112) breaks all of it: any digit followed by x or X takes
the HEX branch ("1x2" lexes as one HEX token), and every other digit run
lexes as an INT token with EMPTY literal text because ch_ has been
overwritten with NUL before the scanning loop (so the OCTAL and FLOAT
branches are unreachable).  "0x12" does still produce a HEX token. -/
theorem claim_C3_eval :
    (nextTokenL (initL "12;")).1 = ⟨.INT, ""⟩ ∧
    (nextTokenL (initL "012;")).1 = ⟨.INT, ""⟩ ∧
    (nextTokenL (initL "12.5;")).1 = ⟨.INT, ""⟩ ∧
    (nextTokenL (initL "1x2;")).1 = ⟨.HEX, "1x2"⟩ ∧
    (nextTokenL (initL "0x12;")).1 = ⟨.HEX, "0x12"⟩ := by
  refine ⟨by decide, by decide, by decide, by decide, by decide⟩

/-- Claim C5 counterexample: a BinaryExpression whose left operand is the
boolean literal `true` and whose right operand is the integer literal 1.
Both operands resolve successfully (to BOOL and INT), so the claim
demands an 'operator expects integer operands' error; but the analyzer's
dynamic_cast chain does not cover BooleanLiteral, the operand counts as
unresolved, and the node is marked ILLEGAL silently with NO error
appended. -/
theorem claim_C5_counterexample :
    analyzeExpr ⟨[], []⟩
        (.binary (.boolLit true .ILLEGAL) .PLUS (.intLit 1 .ILLEGAL) .ILLEGAL) =
      (.binary (.boolLit true .BOOL) .PLUS (.intLit 1 .INT) .ILLEGAL, ⟨[], []⟩) := by
  decide

/-- Claim C6 counterexample: in the program `b = true; c = b;` the second
assignment targets a name `c` not yet in scope with a perfectly well-typed
right-hand side (`b`, declared BOOL), yet analysis appends an error and
declares `c` with type ILLEGAL instead of BOOL: the analyzer reads the
right-hand side's type through the inherited Expression::resolvedType
field, which identifier resolution never writes (it writes only the
shadowing field), so the value type is ILLEGAL.  This refutes the claim
that a first assignment to a new name always succeeds with no error and
declares the name with the right-hand side's resolved type. -/
theorem claim_C6_counterexample :
    analyzeProgram
        [.assignS "b" .ILLEGAL .ILLEGAL (.boolLit true .ILLEGAL),
         .assignS "c" .ILLEGAL .ILLEGAL (.ident "b" .ILLEGAL .ILLEGAL)] =
      ([.assignS "b" .ILLEGAL .BOOL (.boolLit true .BOOL),
        .assignS "c" .ILLEGAL .ILLEGAL (.ident "b" .ILLEGAL .BOOL)],
       ⟨[("b", .BOOL), ("c", .ILLEGAL)],
        ["Semantic Error: Attempting to define variable 'c' with an unresolved type."]⟩) := by
  decide

/-- Claim C7 counterexample: for `print y;` with `y` never assigned, the
claim says the code generator, on encountering the undefined variable,
substitutes a zero constant into the accumulator so that emission
continues.  It does not: visitIdentifierExpr records the error and
returns without emitting anything (Codegen.cpp lines 299-303) — the
emitted assembly contains no `mov rax, 0` and no instruction at all for
the identifier, only its comment line. -/
theorem claim_C7_counterexample :
    asmLines .linux "print y;" =
      [".intel_syntax noprefix", ".globl main", ".text", "main:", "  push rbp",
       "  mov rbp, rsp", "  # Print Statement", "  # Identifier: y",
       "  # Main Epilogue", "  mov rsp, rbp", "  pop rbp", "  mov eax, 0", "  ret"] ∧
    "  mov rax, 0" ∉ asmLines .linux "print y;" ∧
    cgErrors .linux "print y;" =
      ["Codegen Error: Undefined variable used 'y'.",
       "Attempting to print an unsupported type (TokenType: ILLEGAL)."] := by
  refine ⟨by decide, by decide, by decide⟩

/-- Claim C7 amended: analysis of `print y;` yields exactly one
undefined-variable error (plus a separate print-argument error); code
generation, run despite the analysis errors, does not abort: it records a
codegen undefined-variable error, emits NO instruction for the identifier
(no zero constant is substituted), records an unsupported-print-type
error, and still completes the prologue/epilogue emission. -/
theorem claim_C7_amended :
    (semErrors .linux "print y;").countP
        (fun s => msgBegins "Semantic Error: Undefined variable" s) = 1 ∧
    semErrors .linux "print y;" =
      ["Semantic Error: Undefined variable 'y'.",
       "Semantic Error: PRINT statement argument has an unresolved or invalid type."] ∧
    cgErrors .linux "print y;" =
      ["Codegen Error: Undefined variable used 'y'.",
       "Attempting to print an unsupported type (TokenType: ILLEGAL)."] ∧
    asmLines .linux "print y;" =
      [".intel_syntax noprefix", ".globl main", ".text", "main:", "  push rbp",
       "  mov rbp, rsp", "  # Print Statement", "  # Identifier: y",
       "  # Main Epilogue", "  mov rsp, rbp", "  pop rbp", "  mov eax, 0", "  ret"] := by
  refine ⟨by decide, by decide, by decide, by decide⟩

/-- Claim C8 counterexample: the claim says the infix assignment operator
binds loosest, i.e. its precedence is strictly below SUM and PRODUCT.  In
Parser.h the enumerator ASSIGN_PRECEDENCE is 4, ABOVE both SUM (2) and
PRODUCT (3). -/
theorem claim_C8_counterexample :
    precLookup .ASSIGN = some ASSIGN_PRECEDENCE ∧
    precLookup .PLUS = some SUM ∧
    precLookup .ASTERISK = some PRODUCT ∧
    ¬ ASSIGN_PRECEDENCE < SUM ∧
    ¬ ASSIGN_PRECEDENCE < PRODUCT := by
  decide

/-- Claim C8 amended: `*` and `/` (PRODUCT) do bind tighter than `+` and
`-` (SUM), but the infix `=` has the HIGHEST precedence of all infix
operators (ASSIGN_PRECEDENCE = 4 > PRODUCT = 3 > SUM = 2), i.e. it binds
tightest, not loosest. -/
theorem claim_C8_amended :
    precLookup .PLUS = some SUM ∧
    precLookup .MINUS = some SUM ∧
    precLookup .ASTERISK = some PRODUCT ∧
    precLookup .SLASH = some PRODUCT ∧
    precLookup .ASSIGN = some ASSIGN_PRECEDENCE ∧
    SUM < PRODUCT ∧ PRODUCT < ASSIGN_PRECEDENCE := by
  decide

/-- Claim C9 (confirmed): parsing the token sequence IDENT(a) PLUS
IDENT(b) ASTERISK IDENT(c) yields a single expression statement whose
root is the `+` BinaryExpression and whose root's right child is the `*`
BinaryExpression over b and c, with no parse errors. -/
theorem identBasesE_analyzeExpr (e : Expr) :
    ∀ st, identBasesE (analyzeExpr st e).1 = identBasesE e := by
  induction e with
  | intLit v rt => intro st; rfl
  | boolLit b rt => intro st; rfl
  | ident n rt sh =>
    intro st
    cases h : resolveS st.scope n <;> simp [analyzeExpr, h, identBasesE]
  | binary l op r rt ihl ihr =>
    intro st
    simp only [analyzeExpr, identBasesE]
    rw [ihl, ihr]

theorem identBasesS_analyzeStmt (s : Stmt) :
    ∀ st, identBasesS (analyzeStmt st s).1 = identBasesS s := by
  cases s with
  | exprS e => intro st; simp [analyzeStmt, identBasesS, identBasesE_analyzeExpr]
  | printS e => intro st; simp [analyzeStmt, identBasesS, identBasesE_analyzeExpr]
  | assignS n irt sh v =>
    intro st
    simp only [analyzeStmt]
    cases h : resolveS (analyzeExpr st v).2.scope n <;>
      simp [h, identBasesS, identBasesE_analyzeExpr] <;>
      split_ifs <;>
      simp [identBasesS, identBasesE_analyzeExpr]

theorem identBasesP_analyzeProgramGo (prog : List Stmt) :
    ∀ st, identBasesP (analyzeProgramGo st prog).1 = identBasesP prog := by
  induction prog with
  | nil => intro st; rfl
  | cons s rest ih =>
    intro st
    simp only [analyzeProgramGo, identBasesP]
    rw [identBasesS_analyzeStmt, ih]

/-- Claim C4 (confirmed): the analyzer writes only IdentifierExpr's
shadowing resolvedType field, so after semantic analysis of any program
every IdentifierExpr's inherited Expression::resolvedType is exactly what
it was before analysis — the parser initialises it to ILLEGAL and it
stays ILLEGAL.  Consequently every read of an identifier's type through
an Expression pointer (the print-statement check, the assignment's
right-hand-side typing, the code generator's print dispatch, all of which
read rtBase) observes ILLEGAL.  Concretely, analyzing `x = 1; print x;`
(as an AST) reports the print-argument error even though x is resolved to
INT in the shadowing field. -/
theorem claim_C4_shadowing :
    (∀ prog, identBasesP (analyzeProgram prog).1 = identBasesP prog) ∧
    (∀ st e, identBasesE (analyzeExpr st e).1 = identBasesE e) ∧
    analyzeProgram
        [.assignS "x" .ILLEGAL .ILLEGAL (.intLit 1 .ILLEGAL),
         .printS (.ident "x" .ILLEGAL .ILLEGAL)] =
      ([.assignS "x" .ILLEGAL .INT (.intLit 1 .INT),
        .printS (.ident "x" .ILLEGAL .INT)],
       ⟨[("x", .INT)],
        ["Semantic Error: PRINT statement argument has an unresolved or invalid type."]⟩) := by
  refine ⟨fun prog => identBasesP_analyzeProgramGo prog ⟨[], []⟩,
    fun st e => identBasesE_analyzeExpr e st, by decide⟩

/-- Claim C5 amended: the analyzer computes binary operand types through a
dynamic_cast chain covering only identifiers (shadowing field), integer
literals (INT) and nested binary expressions (base field); every other
operand — including boolean, string and char literals — counts as
unresolved (ILLEGAL).  If either operand's chain type is ILLEGAL the node
is marked ILLEGAL silently with no new error; if both chain types are
resolved and both are INT the node resolves to INT; if both are resolved
but not both INT (which can only happen through identifiers) exactly one
'expects integer operands' error is appended and the node is marked
ILLEGAL.  Independently, a division whose right operand is the integer
literal 0 is flagged with a division-by-zero error and the node marked
ILLEGAL. -/
theorem claim_C5_amended :
    ∀ st l op r rt0 l1 st1 r1 st2,
      analyzeExpr st l = (l1, st1) →
      analyzeExpr st1 r = (r1, st2) →
      (¬ (op = .SLASH ∧ isIntLitZero r1 = true) →
        ((castChainT l1 = .ILLEGAL ∨ castChainT r1 = .ILLEGAL) →
          analyzeExpr st (.binary l op r rt0) = (.binary l1 op r1 .ILLEGAL, st2)) ∧
        (castChainT l1 = .INT → castChainT r1 = .INT →
          analyzeExpr st (.binary l op r rt0) = (.binary l1 op r1 .INT, st2)) ∧
        (¬ castChainT l1 = .ILLEGAL → ¬ castChainT r1 = .ILLEGAL →
          ¬ (castChainT l1 = .INT ∧ castChainT r1 = .INT) →
          analyzeExpr st (.binary l op r rt0) =
            (.binary l1 op r1 .ILLEGAL,
             addErrA st2 ("Semantic Error: Arithmetic operator '" ++
               tokenTypeStrings op ++ "' expects integer operands.")))) ∧
      (op = .SLASH → isIntLitZero r1 = true →
        rtBase (analyzeExpr st (.binary l op r rt0)).1 = .ILLEGAL ∧
        "Semantic Error: Division by zero detected." ∈
          (analyzeExpr st (.binary l op r rt0)).2.errors) := by
  intro st l op r rt0 l1 st1 r1 st2 h1 h2
  refine ⟨fun hnd => ⟨fun hil => ?_, fun hli hri => ?_, fun hni hnr hnint => ?_⟩,
    fun hsl hz => ?_⟩
  · simp only [analyzeExpr, h1, h2]
    split_ifs <;> first | rfl | tauto | simp_all
  · simp only [analyzeExpr, h1, h2]
    split_ifs <;> first | rfl | tauto | simp_all
  · simp only [analyzeExpr, h1, h2]
    split_ifs <;> first | rfl | tauto | simp_all
  · simp only [analyzeExpr, h1, h2]
    split_ifs <;>
      first
        | tauto
        | (refine ⟨rfl, ?_⟩; simp [addErrA])
        | (simp_all; done)

/-- Witness for claim C5 amended: a binary expression over an identifier
declared BOOL and the integer literal 1 takes the mixed-resolved branch
and appends exactly the 'expects integer operands' error. -/
theorem claim_C5_amended_witness :
    analyzeExpr ⟨[("b", .BOOL)], []⟩
        (.binary (.ident "b" .ILLEGAL .ILLEGAL) .PLUS (.intLit 1 .ILLEGAL) .ILLEGAL) =
      (.binary (.ident "b" .ILLEGAL .BOOL) .PLUS (.intLit 1 .INT) .ILLEGAL,
       ⟨[("b", .BOOL)],
        ["Semantic Error: Arithmetic operator 'PLUS' expects integer operands."]⟩) := by
  have h := claim_C5_amended ⟨[("b", .BOOL)], []⟩ (.ident "b" .ILLEGAL .ILLEGAL) .PLUS
    (.intLit 1 .ILLEGAL) .ILLEGAL (.ident "b" .ILLEGAL .BOOL) ⟨[("b", .BOOL)], []⟩
    (.intLit 1 .INT) ⟨[("b", .BOOL)], []⟩ (by decide) (by decide)
  exact ((h.1 (by decide)).2.2 (by decide) (by decide) (by decide)).trans (by decide)

/-- Claim C6 amended: the behaviour of assignment analysis, with the
right-hand side's type read through the inherited (base) resolvedType
field.  A first assignment to a new name succeeds with no error and
declares the name with the right-hand side's BASE resolved type only when
that type is not ILLEGAL; when it is ILLEGAL (in particular whenever the
right-hand side is a bare identifier, whose resolution writes only the
shadowing field), an 'unresolved type' error is appended and the name is
declared with type ILLEGAL.  For an already-declared name: a differing,
resolved right-hand-side type appends exactly one type-mismatch error and
sets the identifier's shadowing resolvedType to ILLEGAL; a differing
unresolved type appends exactly one warning instead; an exactly matching
type appends nothing. -/
theorem claim_C6_amended :
    ∀ st n irt sh0 v v1 st1,
      analyzeExpr st v = (v1, st1) →
      (resolveS st1.scope n = none → ¬ rtBase v1 = .ILLEGAL →
        analyzeStmt st (.assignS n irt sh0 v) =
          (.assignS n irt (rtBase v1) v1,
           ⟨defineS st1.scope n (rtBase v1), st1.errors⟩)) ∧
      (resolveS st1.scope n = none → rtBase v1 = .ILLEGAL →
        analyzeStmt st (.assignS n irt sh0 v) =
          (.assignS n irt .ILLEGAL v1,
           ⟨defineS st1.scope n .ILLEGAL,
            st1.errors ++ ["Semantic Error: Attempting to define variable '" ++ n ++
              "' with an unresolved type."]⟩)) ∧
      (∀ dt, resolveS st1.scope n = some dt → ¬ dt = rtBase v1 → ¬ rtBase v1 = .ILLEGAL →
        analyzeStmt st (.assignS n irt sh0 v) =
          (.assignS n irt .ILLEGAL v1,
           ⟨st1.scope,
            st1.errors ++ ["Semantic Error: Type mismatch in assignment to '" ++ n ++
              "'. Expected " ++ tokenTypeStrings dt ++ ", but got " ++
              tokenTypeStrings (rtBase v1) ++ "."]⟩)) ∧
      (∀ dt, resolveS st1.scope n = some dt → ¬ dt = rtBase v1 → rtBase v1 = .ILLEGAL →
        analyzeStmt st (.assignS n irt sh0 v) =
          (.assignS n irt .ILLEGAL v1,
           ⟨st1.scope,
            st1.errors ++ ["Semantic Warning: Assignment value for '" ++ n ++
              "' has an unresolved type. Variable type remains " ++
              tokenTypeStrings dt ++ "."]⟩)) ∧
      (∀ dt, resolveS st1.scope n = some dt → dt = rtBase v1 →
        analyzeStmt st (.assignS n irt sh0 v) = (.assignS n irt dt v1, st1)) := by
  intro st n irt sh0 v v1 st1 h1
  refine ⟨fun hres hvt => ?_, fun hres hvt => ?_,
    fun dt hres hne hvt => ?_, fun dt hres hne hvt => ?_, fun dt hres heq => ?_⟩
  · simp only [analyzeStmt, h1, hres, if_neg hvt]
  · simp only [analyzeStmt, h1, hres, if_pos hvt, addErrA]
  · simp only [analyzeStmt, h1, hres, if_pos hne, if_neg hvt, addErrA]
  · simp only [analyzeStmt, h1, hres, if_pos hne, if_pos hvt, addErrA]
  · simp [analyzeStmt, h1, hres, heq]

/-- Witness for claim C6 amended: `a = true` with `a` not yet in scope and
a right-hand side whose base resolved type is BOOL defines a with BOOL
and appends no error. -/
theorem claim_C6_amended_witness :
    analyzeStmt ⟨[], []⟩ (.assignS "a" .ILLEGAL .ILLEGAL (.boolLit true .ILLEGAL)) =
      (.assignS "a" .ILLEGAL .BOOL (.boolLit true .BOOL), ⟨[("a", .BOOL)], []⟩) := by
  have h := claim_C6_amended ⟨[], []⟩ "a" .ILLEGAL .ILLEGAL (.boolLit true .ILLEGAL)
    (.boolLit true .BOOL) ⟨[], []⟩ (by decide)
  exact (h.1 (by decide) (by decide)).trans (by decide)

theorem claim_C9_parse_shape :
    parseTokens
        [⟨.IDENTIFIER, "a"⟩, ⟨.PLUS, "+"⟩, ⟨.IDENTIFIER, "b"⟩,
         ⟨.ASTERISK, "*"⟩, ⟨.IDENTIFIER, "c"⟩] =
      ([.exprS (.binary (.ident "a" .ILLEGAL .ILLEGAL) .PLUS
          (.binary (.ident "b" .ILLEGAL .ILLEGAL) .ASTERISK
            (.ident "c" .ILLEGAL .ILLEGAL) .ILLEGAL) .ILLEGAL)], []) := by
  decide

/-! ## Parser invariants for claim C10 -/

theorem nullBind_none (k : α → PState → Option (Option β × PState)) :
    nullBind none k = none := rfl

theorem nullBind_fail (st : PState) (k : α → PState → Option (Option β × PState)) :
    nullBind (some (none, st)) k = some (none, st) := rfl

theorem nullBind_ok (a : α) (st : PState) (k : α → PState → Option (Option β × PState)) :
    nullBind (some (some a, st)) k = k a st := rfl

theorem dropWhileTok_len_le (p : Token → Bool) :
    ∀ l : List Token, (l.dropWhile p).length ≤ l.length := by
  intro l
  induction l with
  | nil => simp
  | cons a t ih =>
    simp only [List.dropWhile]
    split
    · exact le_trans ih (by simp)
    · exact le_rfl

theorem advanceP_errors (st : PState) : (advanceP st).errors = st.errors := rfl

theorem advanceP_toks_le (st : PState) : (advanceP st).toks.length ≤ st.toks.length := by
  rcases st with ⟨toks, errs⟩
  cases toks with
  | nil => simp [advanceP]
  | cons a t =>
    cases t with
    | nil => simp [advanceP]
    | cons c rest =>
      simp only [advanceP, List.tail_cons, List.length_cons]
      have := dropWhileTok_len_le (fun t => isCommentTok t.type) rest
      omega

theorem advanceP_toks_lt (st : PState) (h : ¬ st.toks = []) :
    (advanceP st).toks.length < st.toks.length := by
  rcases st with ⟨toks, errs⟩
  cases toks with
  | nil => exact absurd rfl h
  | cons a t =>
    cases t with
    | nil => simp [advanceP]
    | cons c rest =>
      simp only [advanceP, List.tail_cons, List.length_cons]
      have := dropWhileTok_len_le (fun t => isCommentTok t.type) rest
      omega

theorem toks_ne_nil_of_cur (st : PState) (h : ¬ (curTok st).type = .END_OF_FILE) :
    ¬ st.toks = [] := by
  intro he
  apply h
  simp [curTok, he, eofTok]

theorem tail_ne_nil_of_infixFn (st : PState) (h : ¬ hasInfixFn (peekTok st).type = false) :
    ¬ st.toks.tail = [] := by
  intro he
  apply h
  simp [peekTok, he, eofTok, hasInfixFn]

theorem errGrow {a b c : List String} (h1 : a <+: b) (h2 : b <+: c) (hbc : ¬ b = c) :
    ¬ a = c := by
  intro hac
  apply hbc
  apply h2.eq_of_length
  have l1 := h1.length_le
  have l2 := h2.length_le
  have l3 : a.length = c.length := by rw [hac]
  omega

theorem parseOkRel_comp {st st1 : PState} {x : Option α} {r : Option β × PState}
    (h1 : parseOkRel st (x, st1)) (h2 : parseOkRel st1 r) : parseOkRel st r :=
  ⟨le_trans h2.1 h1.1, h1.2.1.trans h2.2.1,
    fun hn => errGrow h1.2.1 h2.2.1 (h2.2.2 hn)⟩

theorem parseOkRel_self (a : α) (st : PState) : parseOkRel st (some a, st) :=
  ⟨le_rfl, List.prefix_rfl, by simp⟩

theorem parseOkRel_advance (a : α) (st : PState) :
    parseOkRel st (some a, advanceP st) :=
  ⟨advanceP_toks_le st, by rw [advanceP_errors], by simp⟩

theorem parseOkRel_push {st st2 : PState} {x : Option α}
    (h : parseOkRel st (x, st2)) (m : String) :
    parseOkRel st ((none : Option β), pushErr st2 m) := by
  refine ⟨h.1, h.2.1.trans (List.prefix_append _ _), fun _ he => ?_⟩
  have hl1 : st.errors.length ≤ st2.errors.length := h.2.1.length_le
  have hl2 := congrArg List.length he
  simp only [pushErr, List.length_append, List.length_singleton] at hl2
  omega

theorem parseOkRel_cast_none {st st2 : PState}
    (h : parseOkRel st ((none : Option α), st2)) :
    parseOkRel st ((none : Option β), st2) :=
  ⟨h.1, h.2.1, fun _ => h.2.2 rfl⟩

theorem parseIntegerLiteralP_inv (st : PState) :
    (parseIntegerLiteralP st).2.toks = st.toks ∧
    st.errors <+: (parseIntegerLiteralP st).2.errors ∧
    ((parseIntegerLiteralP st).1 = none →
      ¬ st.errors = (parseIntegerLiteralP st).2.errors) := by
  unfold parseIntegerLiteralP
  split
  · exact ⟨rfl, List.prefix_rfl, by simp⟩
  · refine ⟨rfl, List.prefix_append _ _, fun _ he => ?_⟩
    have := congrArg List.length he
    simp only [pushErr, List.length_append, List.length_singleton] at this
    omega
  · refine ⟨rfl, List.prefix_append _ _, fun _ he => ?_⟩
    have := congrArg List.length he
    simp only [pushErr, List.length_append, List.length_singleton] at this
    omega

/-- Joint window/error invariant of the four expression-parsing
functions, for every fuel value. -/
theorem parse_invariant : ∀ fuel : Nat,
    (∀ prec st r, parseExprF fuel prec st = some r → parseOkRel st r) ∧
    (∀ left prec st r, parseLoopF fuel left prec st = some r → parseOkRel st r) ∧
    (∀ left st r, parseInfixF fuel left st = some r → parseOkRel st r) ∧
    (∀ st r, parseGroupedF fuel st = some r → parseOkRel st r) := by
  intro fuel
  induction fuel with
  | zero =>
    refine ⟨fun prec st r h => ?_, fun left prec st r h => ?_,
      fun left st r h => ?_, fun st r h => ?_⟩ <;>
      simp [parseExprF, parseLoopF, parseInfixF, parseGroupedF] at h
  | succ f ih =>
    obtain ⟨ihE, ihL, ihI, ihG⟩ := ih
    refine ⟨?_, ?_, ?_, ?_⟩
    · -- parseExprF
      intro prec st r h
      simp only [parseExprF] at h
      by_cases hp : hasPrefixFn (curTok st).type = false
      · rw [if_pos hp] at h
        injection h with h2
        subst h2
        exact parseOkRel_push (parseOkRel_self (0 : Nat) st) _
      · rw [if_neg hp] at h
        by_cases hl : (curTok st).type = .LPAREN
        · rw [if_pos hl] at h
          cases hg : parseGroupedF f st with
          | none => rw [hg, nullBind_none] at h; simp at h
          | some pr =>
            obtain ⟨a, st1⟩ := pr
            have hgrel := ihG st (a, st1) hg
            cases a with
            | none =>
              rw [hg, nullBind_fail] at h
              injection h with h2
              subst h2
              exact hgrel
            | some left =>
              rw [hg, nullBind_ok] at h
              exact parseOkRel_comp hgrel (ihL left prec st1 r h)
        · by_cases hi : (curTok st).type = .INT
          · rw [if_neg hl, if_pos hi] at h
            rcases hpl : parseIntegerLiteralP st with ⟨a, st1⟩
            have hinv := parseIntegerLiteralP_inv st
            rw [hpl] at h hinv
            have hrel : parseOkRel st (a, st1) :=
              ⟨le_of_eq (by rw [hinv.1]), hinv.2.1, hinv.2.2⟩
            cases a with
            | none =>
              rw [nullBind_fail] at h
              injection h with h2
              subst h2
              exact hrel
            | some left =>
              rw [nullBind_ok] at h
              exact parseOkRel_comp hrel (ihL left prec st1 r h)
          · by_cases hid : (curTok st).type = .IDENTIFIER
            · rw [if_neg hl, if_neg hi, if_pos hid, nullBind_ok] at h
              exact ihL _ prec st r h
            · rw [if_neg hl, if_neg hi, if_neg hid, nullBind_ok] at h
              exact ihL _ prec st r h
    · -- parseLoopF
      intro left prec st r h
      simp only [parseLoopF] at h
      by_cases h1 : (peekTok st).type = .SEMICOLON
      · rw [if_pos h1] at h
        injection h with h2
        subst h2
        exact parseOkRel_self left st
      · rw [if_neg h1] at h
        by_cases h2p : ¬ prec < peekPrecP st
        · rw [if_pos h2p] at h
          injection h with h2
          subst h2
          exact parseOkRel_self left st
        · rw [if_neg h2p] at h
          by_cases h3 : hasInfixFn (peekTok st).type = false
          · rw [if_pos h3] at h
            injection h with h2
            subst h2
            exact parseOkRel_self left st
          · rw [if_neg h3] at h
            cases hi : parseInfixF f left (advanceP st) with
            | none => rw [hi, nullBind_none] at h; simp at h
            | some pr =>
              obtain ⟨a, st2⟩ := pr
              have hirel := ihI left (advanceP st) (a, st2) hi
              have hadv := parseOkRel_advance left st
              cases a with
              | none =>
                rw [hi, nullBind_fail] at h
                injection h with h2
                subst h2
                exact parseOkRel_comp hadv hirel
              | some l2 =>
                rw [hi, nullBind_ok] at h
                exact parseOkRel_comp hadv
                  (parseOkRel_comp hirel (ihL l2 prec st2 r h))
    · -- parseInfixF
      intro left st r h
      simp only [parseInfixF] at h
      cases he : parseExprF f (curPrecP st) (advanceP st) with
      | none => rw [he, nullBind_none] at h; simp at h
      | some pr =>
        obtain ⟨a, st2⟩ := pr
        have herel := ihE (curPrecP st) (advanceP st) (a, st2) he
        have hadv := parseOkRel_advance left st
        cases a with
        | none =>
          rw [he, nullBind_fail] at h
          injection h with h2
          subst h2
          exact parseOkRel_comp hadv herel
        | some right =>
          rw [he, nullBind_ok] at h
          injection h with h2
          subst h2
          have hc := parseOkRel_comp hadv herel
          exact ⟨hc.1, hc.2.1, by simp⟩
    · -- parseGroupedF
      intro st r h
      simp only [parseGroupedF] at h
      cases he : parseExprF f LOWEST (advanceP st) with
      | none => rw [he, nullBind_none] at h; simp at h
      | some pr =>
        obtain ⟨a, st2⟩ := pr
        have herel := ihE LOWEST (advanceP st) (a, st2) he
        have hadv := parseOkRel_advance (0 : Nat) st
        have hcomp := parseOkRel_comp hadv herel
        cases a with
        | none =>
          rw [he, nullBind_fail] at h
          injection h with h2
          subst h2
          exact hcomp
        | some e =>
          rw [he, nullBind_ok] at h
          by_cases hrp : (peekTok st2).type = .RPAREN
          · simp only [expectPeekP, if_pos hrp, if_true] at h
            injection h with h2
            subst h2
            refine ⟨le_trans (advanceP_toks_le st2) hcomp.1, ?_, by simp⟩
            rw [advanceP_errors]
            exact hcomp.2.1
          · simp only [expectPeekP, if_neg hrp] at h
            simp only [Bool.false_eq_true, if_false] at h
            injection h with h2
            subst h2
            exact parseOkRel_push hcomp _

theorem parseExprF_nil (prec : Nat) (st : PState) (h : st.toks = []) :
    ∀ fuel, 1 ≤ fuel → (parseExprF fuel prec st).isSome := by
  intro fuel hf
  obtain ⟨f, rfl⟩ : ∃ f, fuel = f + 1 := ⟨fuel - 1, by omega⟩
  have hcur : (curTok st).type = .END_OF_FILE := by simp [curTok, h, eofTok]
  simp [parseExprF, hcur, hasPrefixFn]

theorem advanceP_nil_toks (st : PState) (h : st.toks = []) : (advanceP st).toks = [] := by
  simp [advanceP, h]

/-- Fuel sufficiency for the expression parsers: with fuel at least
2·(window size) + 10 none of them ever exhausts its fuel.  Together with
parse_invariant this is the termination argument for parseProgram. -/
theorem parse_suf : ∀ n : Nat, ∀ st : PState, st.toks.length ≤ n →
    (∀ prec fuel, 2 * st.toks.length + 10 ≤ fuel → (parseExprF fuel prec st).isSome) ∧
    (∀ left prec fuel, 2 * st.toks.length + 9 ≤ fuel → (parseLoopF fuel left prec st).isSome) ∧
    (∀ left fuel, 2 * st.toks.length + 9 ≤ fuel → (parseInfixF fuel left st).isSome) ∧
    (∀ fuel, 2 * st.toks.length + 9 ≤ fuel → (parseGroupedF fuel st).isSome) := by
  intro n
  induction n using Nat.strong_induction_on with
  | _ n IH =>
    have hLoop : ∀ st : PState, st.toks.length ≤ n →
        ∀ left prec fuel, 2 * st.toks.length + 9 ≤ fuel →
        (parseLoopF fuel left prec st).isSome := by
      intro st hst left prec fuel hf
      obtain ⟨f, rfl⟩ : ∃ f, fuel = f + 1 := ⟨fuel - 1, by omega⟩
      simp only [parseLoopF]
      by_cases h1 : (peekTok st).type = .SEMICOLON
      · rw [if_pos h1]; simp
      · rw [if_neg h1]
        by_cases h2 : ¬ prec < peekPrecP st
        · rw [if_pos h2]; simp
        · rw [if_neg h2]
          by_cases h3 : hasInfixFn (peekTok st).type = false
          · rw [if_pos h3]; simp
          · rw [if_neg h3]
            have htail := tail_ne_nil_of_infixFn st h3
            have htoks : ¬ st.toks = [] := by
              intro he; exact htail (by simp [he])
            have hlt := advanceP_toks_lt st htoks
            have hlen : (advanceP st).toks.length < n := lt_of_lt_of_le hlt hst
            have hinf := (IH _ hlen (advanceP st) le_rfl).2.2.1 left f (by omega)
            obtain ⟨ri, hri⟩ := Option.isSome_iff_exists.mp hinf
            rw [hri]
            obtain ⟨a, st2⟩ := ri
            cases a with
            | none => rw [nullBind_fail]; simp
            | some l2 =>
              rw [nullBind_ok]
              have hrel := (parse_invariant f).2.2.1 left (advanceP st) (some l2, st2) hri
              have hle2 : st2.toks.length ≤ (advanceP st).toks.length := hrel.1
              have hlen2 : st2.toks.length < n := lt_of_le_of_lt hle2 hlen
              exact (IH _ hlen2 st2 le_rfl).2.1 l2 prec f (by omega)
    have hInfix : ∀ st : PState, st.toks.length ≤ n →
        ∀ left fuel, 2 * st.toks.length + 9 ≤ fuel → (parseInfixF fuel left st).isSome := by
      intro st hst left fuel hf
      obtain ⟨f, rfl⟩ : ∃ f, fuel = f + 1 := ⟨fuel - 1, by omega⟩
      simp only [parseInfixF]
      have hexp : (parseExprF f (curPrecP st) (advanceP st)).isSome := by
        by_cases htoks : st.toks = []
        · exact parseExprF_nil _ _ (advanceP_nil_toks st htoks) f (by omega)
        · have hlt := advanceP_toks_lt st htoks
          have hlen : (advanceP st).toks.length < n := lt_of_lt_of_le hlt hst
          exact (IH _ hlen (advanceP st) le_rfl).1 (curPrecP st) f (by omega)
      obtain ⟨re, hre⟩ := Option.isSome_iff_exists.mp hexp
      rw [hre]
      obtain ⟨a, st2⟩ := re
      cases a with
      | none => rw [nullBind_fail]; simp
      | some right => rw [nullBind_ok]; simp
    have hGrouped : ∀ st : PState, st.toks.length ≤ n →
        ∀ fuel, 2 * st.toks.length + 9 ≤ fuel → (parseGroupedF fuel st).isSome := by
      intro st hst fuel hf
      obtain ⟨f, rfl⟩ : ∃ f, fuel = f + 1 := ⟨fuel - 1, by omega⟩
      simp only [parseGroupedF]
      have hexp : (parseExprF f LOWEST (advanceP st)).isSome := by
        by_cases htoks : st.toks = []
        · exact parseExprF_nil _ _ (advanceP_nil_toks st htoks) f (by omega)
        · have hlt := advanceP_toks_lt st htoks
          have hlen : (advanceP st).toks.length < n := lt_of_lt_of_le hlt hst
          exact (IH _ hlen (advanceP st) le_rfl).1 LOWEST f (by omega)
      obtain ⟨re, hre⟩ := Option.isSome_iff_exists.mp hexp
      rw [hre]
      obtain ⟨a, st2⟩ := re
      cases a with
      | none => rw [nullBind_fail]; simp
      | some e =>
        rw [nullBind_ok]
        by_cases hrp : (peekTok st2).type = .RPAREN
        · simp [expectPeekP, if_pos hrp]
        · simp [expectPeekP, if_neg hrp]
    have hExpr : ∀ st : PState, st.toks.length ≤ n →
        ∀ prec fuel, 2 * st.toks.length + 10 ≤ fuel → (parseExprF fuel prec st).isSome := by
      intro st hst prec fuel hf
      obtain ⟨f, rfl⟩ : ∃ f, fuel = f + 1 := ⟨fuel - 1, by omega⟩
      simp only [parseExprF]
      by_cases hp : hasPrefixFn (curTok st).type = false
      · rw [if_pos hp]; simp
      · rw [if_neg hp]
        by_cases hl : (curTok st).type = .LPAREN
        · rw [if_pos hl]
          have hg := hGrouped st hst f (by omega)
          obtain ⟨rg, hrg⟩ := Option.isSome_iff_exists.mp hg
          rw [hrg]
          obtain ⟨a, st1⟩ := rg
          cases a with
          | none => rw [nullBind_fail]; simp
          | some left =>
            rw [nullBind_ok]
            have hrel := (parse_invariant f).2.2.2 st (some left, st1) hrg
            have hle1 : st1.toks.length ≤ st.toks.length := hrel.1
            exact hLoop st1 (le_trans hle1 hst) left prec f (by omega)
        · by_cases hi : (curTok st).type = .INT
          · rw [if_neg hl, if_pos hi]
            rcases hpl : parseIntegerLiteralP st with ⟨a, st1⟩
            cases a with
            | none => rw [nullBind_fail]; simp
            | some left =>
              rw [nullBind_ok]
              have htk := (parseIntegerLiteralP_inv st).1
              rw [hpl] at htk
              have htk2 : st1.toks = st.toks := htk
              exact hLoop st1 (by rw [htk2]; exact hst) left prec f
                (by rw [htk2]; omega)
          · by_cases hid : (curTok st).type = .IDENTIFIER
            · rw [if_neg hl, if_neg hi, if_pos hid, nullBind_ok]
              exact hLoop st hst _ prec f (by omega)
            · rw [if_neg hl, if_neg hi, if_neg hid, nullBind_ok]
              exact hLoop st hst _ prec f (by omega)
    exact fun st hst => ⟨hExpr st hst, hLoop st hst, hInfix st hst, hGrouped st hst⟩

/-- Window/error invariant lifted to statement parsing. -/
theorem parseStatementF_inv (fuel : Nat) (st : PState) (r : Option Stmt × PState)
    (h : parseStatementF fuel st = some r) : parseOkRel st r := by
  unfold parseStatementF at h
  by_cases hp : (curTok st).type = .PRINT
  · rw [if_pos hp] at h
    unfold parsePrintF at h
    cases he : parseExprF fuel LOWEST (advanceP st) with
    | none => rw [he, nullBind_none] at h; simp at h
    | some pr =>
      obtain ⟨a, st2⟩ := pr
      have hrel := (parse_invariant fuel).1 LOWEST (advanceP st) (a, st2) he
      have hcomp := parseOkRel_comp (parseOkRel_advance (0 : Nat) st) hrel
      cases a with
      | none =>
        rw [he, nullBind_fail] at h
        injection h with h2
        subst h2
        exact parseOkRel_cast_none hcomp
      | some e =>
        rw [he, nullBind_ok] at h
        by_cases hsemi : (peekTok st2).type = .SEMICOLON
        · simp only [if_pos hsemi] at h
          injection h with h2
          subst h2
          refine ⟨le_trans (advanceP_toks_le st2) hcomp.1, ?_, by simp⟩
          rw [advanceP_errors]
          exact hcomp.2.1
        · simp only [if_neg hsemi] at h
          injection h with h2
          subst h2
          exact ⟨hcomp.1, hcomp.2.1, by simp⟩
  · rw [if_neg hp] at h
    by_cases ha : (curTok st).type = .IDENTIFIER ∧ (peekTok st).type = .ASSIGN
    · rw [if_pos ha] at h
      unfold parseAssignF at h
      simp only [expectPeekP, if_pos ha.2] at h
      simp only [Bool.true_eq_false, if_false] at h
      cases he : parseExprF fuel LOWEST (advanceP (advanceP st)) with
      | none => rw [he, nullBind_none] at h; simp at h
      | some pr =>
        obtain ⟨a, st2⟩ := pr
        have hrel := (parse_invariant fuel).1 LOWEST (advanceP (advanceP st)) (a, st2) he
        have hcomp := parseOkRel_comp (parseOkRel_advance (0 : Nat) st)
          (parseOkRel_comp (parseOkRel_advance (0 : Nat) (advanceP st)) hrel)
        cases a with
        | none =>
          rw [he, nullBind_fail] at h
          injection h with h2
          subst h2
          exact parseOkRel_cast_none hcomp
        | some v =>
          rw [he, nullBind_ok] at h
          by_cases hsemi : (peekTok st2).type = .SEMICOLON
          · simp only [if_pos hsemi] at h
            injection h with h2
            subst h2
            refine ⟨le_trans (advanceP_toks_le st2) hcomp.1, ?_, by simp⟩
            rw [advanceP_errors]
            exact hcomp.2.1
          · simp only [if_neg hsemi] at h
            injection h with h2
            subst h2
            exact ⟨hcomp.1, hcomp.2.1, by simp⟩
    · rw [if_neg ha] at h
      unfold parseExprStmtF at h
      cases he : parseExprF fuel LOWEST st with
      | none => rw [he, nullBind_none] at h; simp at h
      | some pr =>
        obtain ⟨a, st2⟩ := pr
        have hrel := (parse_invariant fuel).1 LOWEST st (a, st2) he
        cases a with
        | none =>
          rw [he, nullBind_fail] at h
          injection h with h2
          subst h2
          exact parseOkRel_cast_none hrel
        | some e =>
          rw [he, nullBind_ok] at h
          by_cases hsemi : (peekTok st2).type = .SEMICOLON
          · simp only [if_pos hsemi] at h
            injection h with h2
            subst h2
            refine ⟨le_trans (advanceP_toks_le st2) hrel.1, ?_, by simp⟩
            rw [advanceP_errors]
            exact hrel.2.1
          · simp only [if_neg hsemi] at h
            injection h with h2
            subst h2
            exact ⟨hrel.1, hrel.2.1, by simp⟩

theorem parseStatementF_isSome (fuel : Nat) (st : PState)
    (hf : 2 * st.toks.length + 10 ≤ fuel) : (parseStatementF fuel st).isSome := by
  unfold parseStatementF
  by_cases hp : (curTok st).type = .PRINT
  · rw [if_pos hp]
    unfold parsePrintF
    have hexp : (parseExprF fuel LOWEST (advanceP st)).isSome := by
      have := advanceP_toks_le st
      exact (parse_suf (advanceP st).toks.length (advanceP st) le_rfl).1 LOWEST fuel
        (by omega)
    obtain ⟨re, hre⟩ := Option.isSome_iff_exists.mp hexp
    rw [hre]
    obtain ⟨a, st2⟩ := re
    cases a with
    | none => rw [nullBind_fail]; simp
    | some e => rw [nullBind_ok]; simp
  · rw [if_neg hp]
    by_cases ha : (curTok st).type = .IDENTIFIER ∧ (peekTok st).type = .ASSIGN
    · rw [if_pos ha]
      unfold parseAssignF
      simp only [expectPeekP, if_pos ha.2]
      simp only [Bool.true_eq_false, if_false]
      have hexp : (parseExprF fuel LOWEST (advanceP (advanceP st))).isSome := by
        have h1 := advanceP_toks_le st
        have h2 := advanceP_toks_le (advanceP st)
        exact (parse_suf (advanceP (advanceP st)).toks.length _ le_rfl).1 LOWEST fuel
          (by omega)
      obtain ⟨re, hre⟩ := Option.isSome_iff_exists.mp hexp
      rw [hre]
      obtain ⟨a, st2⟩ := re
      cases a with
      | none => rw [nullBind_fail]; simp
      | some v => rw [nullBind_ok]; simp
    · rw [if_neg ha]
      unfold parseExprStmtF
      have hexp : (parseExprF fuel LOWEST st).isSome :=
        (parse_suf st.toks.length st le_rfl).1 LOWEST fuel hf
      obtain ⟨re, hre⟩ := Option.isSome_iff_exists.mp hexp
      rw [hre]
      obtain ⟨a, st2⟩ := re
      cases a with
      | none => rw [nullBind_fail]; simp
      | some e => rw [nullBind_ok]; simp

theorem parseTopLevelF_inv (fuel : Nat) (st : PState) (r : Option TopNode × PState)
    (h : parseTopLevelF fuel st = some r) : parseOkRel st r := by
  unfold parseTopLevelF at h
  by_cases hc : isCommentTok (curTok st).type
  · rw [if_pos hc] at h
    injection h with h2
    subst h2
    exact parseOkRel_self _ st
  · rw [if_neg hc] at h
    cases hs : parseStatementF fuel st with
    | none => rw [hs, nullBind_none] at h; simp at h
    | some pr =>
      obtain ⟨a, st2⟩ := pr
      have hrel := parseStatementF_inv fuel st (a, st2) hs
      cases a with
      | none =>
        rw [hs, nullBind_fail] at h
        injection h with h2
        subst h2
        exact parseOkRel_cast_none hrel
      | some s =>
        rw [hs, nullBind_ok] at h
        injection h with h2
        subst h2
        exact ⟨hrel.1, hrel.2.1, by simp⟩

theorem parseTopLevelF_isSome (fuel : Nat) (st : PState)
    (hf : 2 * st.toks.length + 10 ≤ fuel) : (parseTopLevelF fuel st).isSome := by
  unfold parseTopLevelF
  by_cases hc : isCommentTok (curTok st).type
  · rw [if_pos hc]; simp
  · rw [if_neg hc]
    obtain ⟨rs, hrs⟩ := Option.isSome_iff_exists.mp (parseStatementF_isSome fuel st hf)
    rw [hrs]
    obtain ⟨a, st2⟩ := rs
    cases a with
    | none => rw [nullBind_fail]; simp
    | some s => rw [nullBind_ok]; simp

theorem parseTopLevelF_progress (fuel : Nat) (st : PState) (r : Option TopNode × PState)
    (hne : ¬ (curTok st).type = .END_OF_FILE) (h : parseTopLevelF fuel st = some r) :
    (advanceP r.2).toks.length < st.toks.length := by
  have hinv := parseTopLevelF_inv fuel st r h
  have hne2 := toks_ne_nil_of_cur st hne
  by_cases hnil : r.2.toks = []
  · rw [advanceP_nil_toks r.2 hnil]
    simpa using List.length_pos.mpr hne2
  · exact lt_of_lt_of_le (advanceP_toks_lt r.2 hnil)
      (hinv.1 : r.2.toks.length ≤ st.toks.length)

theorem parseProgramGoF_isSome :
    ∀ fuel st acc, st.toks.length < fuel → (parseProgramGoF fuel st acc).isSome := by
  intro fuel
  induction fuel with
  | zero => intro st acc h; exact absurd h (Nat.not_lt_zero _)
  | succ f ih =>
    intro st acc h
    simp only [parseProgramGoF]
    by_cases he : (curTok st).type = .END_OF_FILE
    · rw [if_pos he]; simp
    · rw [if_neg he]
      obtain ⟨p, hp⟩ := Option.isSome_iff_exists.mp
        (parseTopLevelF_isSome (2 * st.toks.length + 10) st le_rfl)
      rw [hp, Option.some_bind]
      apply ih
      have hlt := parseTopLevelF_progress _ st p he hp
      omega

/-- Claim C10 (confirmed): Parser::parseProgram terminates on every finite
token stream (the fueled model never exhausts the fuel parseTokens
supplies: first conjunct), each iteration of the top-level loop advances
the token stream by at least one token (second conjunct — strictly fewer
tokens remain after processing a top-level node and advancing), and every
parse failure returns a null sub-tree with at least one message appended
to the error list rather than raising an exception (third conjunct: a
null statement result strictly extends the error list, of which the old
list is a prefix; exceptions do not exist in the model, mirroring the
source where the only throwing call, std::stoi, is wrapped in catch
blocks and every tokenTypeStrings lookup is over a complete map). -/
theorem claim_C10_parser_total :
    (∀ raw : List Token, (parseProgramAux raw).isSome) ∧
    (∀ fuel st r, ¬ (curTok st).type = .END_OF_FILE →
      parseTopLevelF fuel st = some r →
      (advanceP r.2).toks.length < st.toks.length) ∧
    (∀ fuel st r, parseStatementF fuel st = some r → r.1 = none →
      st.errors <+: r.2.errors ∧ ¬ st.errors = r.2.errors) := by
  refine ⟨fun raw => ?_, fun fuel st r hne h => parseTopLevelF_progress fuel st r hne h,
    fun fuel st r h hn => ?_⟩
  · unfold parseProgramAux
    exact parseProgramGoF_isSome _ _ [] (by omega)
  · have hinv := parseStatementF_inv fuel st r h
    exact ⟨hinv.2.1, hinv.2.2 hn⟩

/-- Witness for claim C10: instantiated on the token stream [INT ""] that
the lexer produces for the source "12;".  parseProgram succeeds, one
top-level iteration consumes the token, and the failed integer-literal
parse appends exactly one error to the initially empty list. -/
theorem claim_C10_witness :
    (parseProgramAux [⟨.INT, ""⟩]).isSome = true ∧
    (advanceP (⟨[⟨.INT, ""⟩], ["Could not parse  as integer."]⟩ : PState)).toks.length < 1 ∧
    (([] : List String) <+: ["Could not parse  as integer."] ∧
      ¬ ([] : List String) = ["Could not parse  as integer."]) := by
  refine ⟨claim_C10_parser_total.1 [⟨.INT, ""⟩], ?_, ?_⟩
  · exact claim_C10_parser_total.2.1 12 ⟨[⟨.INT, ""⟩], []⟩
      (none, ⟨[⟨.INT, ""⟩], ["Could not parse  as integer."]⟩) (by decide) (by decide)
  · exact claim_C10_parser_total.2.2 12 ⟨[⟨.INT, ""⟩], []⟩
      (none, ⟨[⟨.INT, ""⟩], ["Could not parse  as integer."]⟩) (by decide) rfl

end Gfxl
